import Mathlib

set_option maxRecDepth 10000

/-!
Verification development for the Stock_News_Agent repository.

Shallow embedding of the four source modules:
  * src/utils/fetch_html_content.py : parse_news_html (the two-tier HTML extractor)
  * src/utils/database.py           : init_db, save_news, get_unsmarized_news,
                                      update_news_summary, get_news_by_date_range
  * src/utils/llm_service.py        : LLMService.summarize_text, LLMService.generate_daily_report
  * src/utils/news_processor.py     : NewsProcessor.process_and_summarize_news,
                                      NewsProcessor.create_daily_report

Python dictionaries are modelled as association lists, Python exceptions as
explicit error values, the SQLite news table as an in-memory list of rows
kept in insertion (rowid) order, and the remote LLM as an oracle parameter.
-/

/-! ## JSON values and Python-semantics helpers for parse_news_html -/

/-- A parsed JSON value, as produced by json.loads inside parse_news_html
(src/utils/fetch_html_content.py line 69).  Numbers are restricted to the
integers, which covers every input the development evaluates.  An obj models
a Python dict produced by json.loads, so its keys are pairwise distinct and
listed in insertion order. -/
inductive Json where
  | null
  | bool (b : Bool)
  | num (n : Int)
  | str (s : String)
  | arr (elems : List Json)
  | obj (entries : List (String × Json))

/-- Python truthiness of a JSON value (empty containers, empty strings,
zero, None and False are falsy). -/
def pyTruthy : Json → Bool
  | .null => false
  | .bool b => b
  | .num n => decide (n ≠ 0)
  | .str s => !s.isEmpty
  | .arr es => !es.isEmpty
  | .obj kvs => !kvs.isEmpty

/-- First-match lookup in a dict modelled as an association list. -/
def jsonLookup : List (String × Json) → String → Option Json
  | [], _ => none
  | (k, v) :: rest, key => if k = key then some v else jsonLookup rest key

/-- Python equality of a JSON value with a string literal: only an equal
string compares equal. -/
def isStrEq (k : String) : Json → Bool
  | .str s => s == k
  | _ => false

/-- Whether one character list starts with another. -/
def charListStarts : List Char → List Char → Bool
  | [], _ => true
  | _ :: _, [] => false
  | a :: as, b :: bs => a == b && charListStarts as bs

/-- Substring search on character lists. -/
def charListContains (needle : List Char) : List Char → Bool
  | [] => charListStarts needle []
  | c :: rest => charListStarts needle (c :: rest) || charListContains needle rest

/-- Python substring membership needle in hay. -/
def strContains (hay needle : String) : Bool :=
  charListContains needle.data hay.data

/-- Whitespace characters removed by the Python str.strip method (the ASCII
ones; exotic unicode whitespace is outside the modelled input space). -/
def isPySpace (c : Char) : Bool :=
  c == ' ' || c == '\t' || c == '\n' || c == '\r' || c == '\x0b' || c == '\x0c'

/-- Python str.strip(): remove leading and trailing whitespace. -/
def pyStrip (s : String) : String :=
  ⟨((s.data.dropWhile isPySpace).reverse.dropWhile isPySpace).reverse⟩

/-- Python membership test k in v.  On a dict it checks the keys, on a string
it is a substring test, on a list it compares k with each element; on any
other value it raises TypeError, modelled as an error (caught by the except
clause of parse_news_html). -/
def pyIn (k : String) : Json → Except Unit Bool
  | .obj kvs => .ok (kvs.any (fun kv => kv.1 == k))
  | .str s => .ok (strContains s k)
  | .arr es => .ok (es.any (isStrEq k))
  | _ => .error ()

/-- Python exceptions that escape parse_news_html: its except clause at
src/utils/fetch_html_content.py line 95 catches only JSONDecodeError,
TypeError and KeyError, so AttributeError and IndexError propagate. -/
inductive PyErr where
  | attributeError
  | indexError
deriving DecidableEq

/-! ## Tier 1 of parse_news_html (structured-data extraction) -/

/-- Result of evaluating the expression "".join(p_child for p_child in kids
if isinstance(p_child, str)) at src/utils/fetch_html_content.py line 85:
iterating a list keeps its string elements, iterating a string yields its
characters (all strings), iterating a dict yields its keys (all strings);
any other value is not iterable and raises TypeError (caught). -/
def joinStrChildren : Json → Except Unit String
  | .arr es => .ok (es.foldl (fun acc e => match e with | .str s => acc ++ s | _ => acc) "")
  | .str s => .ok s
  | .obj kvs => .ok (kvs.foldl (fun acc kv => acc ++ kv.1) "")
  | _ => .error ()

/-- Outcome of the paragraph-node loop, threading the accumulated paragraph
list (mutations before a caught exception persist). -/
inductive NodesOut where
  | ok (ps : List String)
  | caught (ps : List String)
  | raised (e : PyErr)

/-- The loop for paragraph_node in story_data.astDescription.children at
src/utils/fetch_html_content.py lines 82-87.  A non-dict node reaches
paragraph_node.get and raises AttributeError, which the except clause does
not catch. -/
def processNodes : List Json → List String → NodesOut
  | [], ps => .ok ps
  | node :: rest, ps =>
    match node with
    | .obj kvs =>
      let typeOk := match jsonLookup kvs "type" with
        | some v => isStrEq "p" v
        | none => false
      let hasKids := kvs.any (fun kv => kv.1 == "children")
      if typeOk && hasKids then
        match joinStrChildren ((jsonLookup kvs "children").getD .null) with
        | .error _ => .caught ps
        | .ok text => processNodes rest (if text.isEmpty then ps else ps ++ [text])
      else processNodes rest ps
    | _ => .raised .attributeError

/-- Outcome of processing one top-level value of a structured-data block,
threading the mutable title and paragraph-list state of parse_news_html. -/
inductive KeyOut where
  | ret (t : String) (c : String)
  | raised (e : PyErr)
  | caught (t : Json) (ps : List String)
  | next (t : Json) (ps : List String)

/-- The short-circuit test if title and content_paragraphs at
src/utils/fetch_html_content.py lines 90-94: on success returns the stripped
title and newline-joined paragraphs; a truthy non-string title reaches
title.strip() and raises AttributeError (uncaught). -/
def shortCircuit (title : Json) (ps : List String) : KeyOut :=
  if pyTruthy title && !ps.isEmpty then
    match title with
    | .str s => .ret (pyStrip s) (String.intercalate "\n" ps)
    | _ => .raised .attributeError
  else .next title ps

/-- The astDescription part of the story processing at
src/utils/fetch_html_content.py lines 81-94, including the short-circuit
check, which is nested inside the astDescription conditional. -/
def contAst (story title : Json) (ps : List String) : KeyOut :=
  match pyIn "astDescription" story with
  | .error _ => .caught title ps
  | .ok false => .next title ps
  | .ok true =>
    match story with
    | .obj skvs =>
      let astD := (jsonLookup skvs "astDescription").getD .null
      match pyIn "children" astD with
      | .error _ => .caught title ps
      | .ok false => .next title ps
      | .ok true =>
        match astD with
        | .obj akvs =>
          match (jsonLookup akvs "children").getD .null with
          | .arr nodes =>
            match processNodes nodes ps with
            | .ok ps2 => shortCircuit title ps2
            | .caught ps2 => .caught title ps2
            | .raised e => .raised e
          | .obj ckvs =>
            if ckvs.isEmpty then shortCircuit title ps else .raised .attributeError
          | .str s =>
            if s.isEmpty then shortCircuit title ps else .raised .attributeError
          | _ => .caught title ps
        | _ => .caught title ps
    | _ => .caught title ps

/-- Processing of one value data[key] of the for key in data loop at
src/utils/fetch_html_content.py lines 72-94: only a dict containing a story
key is examined; a present story title is read (raising TypeError, caught,
when the story is not a dict), then the astDescription part runs. -/
def processValue (v title : Json) (ps : List String) : KeyOut :=
  match v with
  | .obj kvs =>
    if kvs.any (fun kv => kv.1 == "story") then
      let story := (jsonLookup kvs "story").getD .null
      match pyIn "title" story with
      | .error _ => .caught title ps
      | .ok true =>
        match story with
        | .obj skvs => contAst story ((jsonLookup skvs "title").getD .null) ps
        | _ => .caught title ps
      | .ok false => contAst story title ps
    else .next title ps
  | _ => .next title ps

/-- Outcome of processing one structured-data script block. -/
inductive ScriptOut where
  | ret (t : String) (c : String)
  | raised (e : PyErr)
  | state (t : Json) (ps : List String)

/-- Result of the Python indexing expression data[key] when data is a list:
an integer (or boolean) index in range yields the element, an out-of-range
integer raises IndexError (uncaught), any other key raises TypeError
(caught). -/
def pyListIndex (es : List Json) (k : Json) : ScriptOut ⊕ Json :=
  match k with
  | .num n =>
    if 0 ≤ n ∧ n < (es.length : Int) then .inr (es.getD n.toNat .null)
    else if -(es.length : Int) ≤ n ∧ n < 0 then .inr (es.getD (es.length - (-n).toNat) .null)
    else .inl (.raised .indexError)
  | .bool b =>
    let i : Nat := if b then 1 else 0
    if i < es.length then .inr (es.getD i .null) else .inl (.raised .indexError)
  | _ => .inl (.state .null [])

/-- The for key in data loop when data is a dict: iterate the keys in
insertion order, looking each value up. -/
def loopKeys (full : List (String × Json)) :
    List (String × Json) → Json → List String → ScriptOut
  | [], t, ps => .state t ps
  | kv :: rest, t, ps =>
    match processValue ((jsonLookup full kv.1).getD .null) t ps with
    | .ret a c => .ret a c
    | .raised e => .raised e
    | .caught t2 ps2 => .state t2 ps2
    | .next t2 ps2 => loopKeys full rest t2 ps2

/-- The for key in data loop when data is a list: iterate the elements, each
used to index the list itself; a TypeError while indexing is caught
(aborting the script with the current state), an IndexError propagates. -/
def loopArr (full : List Json) : List Json → Json → List String → ScriptOut
  | [], t, ps => .state t ps
  | e :: rest, t, ps =>
    match pyListIndex full e with
    | .inl (.raised err) => .raised err
    | .inl _ => .state t ps
    | .inr v =>
      match processValue v t ps with
      | .ret a c => .ret a c
      | .raised err => .raised err
      | .caught t2 ps2 => .state t2 ps2
      | .next t2 ps2 => loopArr full rest t2 ps2

/-- Processing of one successfully parsed structured-data block
(src/utils/fetch_html_content.py lines 69-94).  Iterating a string yields
character keys whose use as an index raises TypeError (caught); iterating
any non-container raises TypeError (caught); either way the script is
abandoned with the current state. -/
def processScript (j : Json) (t : Json) (ps : List String) : ScriptOut :=
  match j with
  | .obj kvs => loopKeys kvs kvs t ps
  | .arr es => loopArr es es t ps
  | _ => .state t ps

/-- The loop over all structured-data script blocks
(src/utils/fetch_html_content.py lines 66-97).  A none entry models a block
whose contents fail json.loads (JSONDecodeError, or TypeError on a tag with
no single string child); both are caught and the block is skipped. -/
def tier1 : List (Option Json) → Json → List String → ScriptOut
  | [], t, ps => .state t ps
  | none :: rest, t, ps => tier1 rest t ps
  | some j :: rest, t, ps =>
    match processScript j t ps with
    | .ret a c => .ret a c
    | .raised e => .raised e
    | .state t2 ps2 => tier1 rest t2 ps2

/-! ## The document model and parse_news_html itself -/

/-- The parts of a parsed HTML document that parse_news_html reads: the
structured-data script blocks in document order (each either parsed JSON or
a parse failure), the stripped text of the first h1 matching each of the
three title selectors tried in order at src/utils/fetch_html_content.py
lines 104-110, and the stripped texts of the p elements inside the first
div of class body-KX2tCBZq (none when no such div exists). -/
structure Doc where
  scripts : List (Option Json)
  h1TitleKX : Option String
  h1TvNews : Option String
  h1Heading : Option String
  bodyParagraphs : Option (List String)

/-- The dictionary returned by parse_news_html.  The title can be a non-string
JSON value leaked out of tier 1 on the fallback path, so it is kept as Json. -/
structure ExtractionResult where
  title : Json
  content : String

/-- Tier-2 title determination (src/utils/fetch_html_content.py lines
104-110): the first matching h1 selector overwrites the title variable;
when none matches the (possibly tier-1-leaked) title is kept. -/
def tier2Title (doc : Doc) (t : Json) : Json :=
  match doc.h1TitleKX with
  | some s => .str s
  | none =>
    match doc.h1TvNews with
    | some s => .str s
    | none =>
      match doc.h1Heading with
      | some s => .str s
      | none => t

/-- parse_news_html (src/utils/fetch_html_content.py lines 49-133).  The
input none models a falsy html_content argument (None or the empty string).
The result is an error exactly when the Python function raises an uncaught
exception. -/
def parse_news_html (input : Option Doc) : Except PyErr ExtractionResult :=
  match input with
  | none => .ok ⟨.str "Error", "Empty HTML content provided."⟩
  | some doc =>
    match tier1 doc.scripts (.str "") [] with
    | .ret t c => .ok ⟨.str t, c⟩
    | .raised e => .error e
    | .state t ps =>
      let t2 := tier2Title doc t
      let ps2 := ps ++ (match doc.bodyParagraphs with
        | some l => l.filter (fun s => !s.isEmpty)
        | none => [])
      if ps2.isEmpty then
        .ok ⟨if pyTruthy t2 then t2 else .str "No Title Found",
             "No readable content found on this page after trying all methods."⟩
      else .ok ⟨t2, String.intercalate "\n" ps2⟩

/-! ## The news store (src/utils/database.py) -/

/-- One row of the news table created by init_db (src/utils/database.py
lines 12-24): symbol, title and link are NOT NULL, link is UNIQUE, content,
summary, source and published_at are nullable.  The surrogate id is the
autoincrement primary key.  (created_at, a default-now timestamp no claim
touches, is not modelled.) -/
structure NewsRow where
  id : Nat
  symbol : String
  title : String
  content : Option String
  summary : Option String
  link : String
  source : Option String
  published_at : Option String
deriving DecidableEq

/-- The news table: rows in insertion (rowid) order plus the next
autoincrement id. -/
structure Store where
  rows : List NewsRow
  nextId : Nat
deriving DecidableEq

/-- The state produced by init_db on a fresh database file: an empty news
table (init_db is idempotent, CREATE TABLE IF NOT EXISTS). -/
def init_db : Store := ⟨[], 0⟩

/-- A candidate news record: a Python dict with string values, modelled as
an association list; get is first-match lookup, absent key gives none. -/
def Candidate : Type := List (String × String)

/-- Python dict .get. -/
def cget (item : Candidate) (k : String) : Option String :=
  match item with
  | [] => none
  | (k2, v) :: rest => if k2 = k then some v else cget rest k

/-- Python dict assignment item[k] = v, modelled by prepending the binding:
cget is first-match lookup, so the old binding is shadowed exactly as the
dict assignment replaces it. -/
def cset (item : Candidate) (k : String) (v : String) : Candidate :=
  (k, v) :: item

/-- Whether the INSERT of save_news succeeds for one item against the
current table: the NOT NULL columns symbol, title and link must be present
and the link must not already be stored; otherwise sqlite3 raises
IntegrityError, which save_news catches, skipping the item
(src/utils/database.py lines 38-52). -/
def itemInsertable (st : Store) (item : Candidate) : Bool :=
  (cget item "symbol").isSome && (cget item "title").isSome &&
    (match cget item "link" with
     | some l => !(st.rows.any (fun r => r.link == l))
     | none => false)

/-- Effect of one loop iteration of save_news on the table: insert the row,
reading published_at from the candidate key published, or leave the table
unchanged when the INSERT raises (src/utils/database.py lines 37-54). -/
def insertItem (st : Store) (item : Candidate) : Store :=
  match cget item "symbol", cget item "title", cget item "link" with
  | some sym, some t, some l =>
    if st.rows.any (fun r => r.link == l) then st
    else ⟨st.rows ++ [⟨st.nextId, sym, t, cget item "content", none, l,
                       cget item "source", cget item "published"⟩],
          st.nextId + 1⟩
  | _, _, _ => st

/-- The body of save_news: process the items in order, counting the
successful inserts (the saved_count variable that is printed at
src/utils/database.py line 57). -/
def save_news_run : List Candidate → Store → Store × Nat
  | [], st => (st, 0)
  | item :: rest, st =>
    let inc := if itemInsertable st item then 1 else 0
    let out := save_news_run rest (insertItem st item)
    (out.1, inc + out.2)

/-- save_news (src/utils/database.py lines 29-57).  The second component is
the Python return value: the function has no return statement, so it
returns None, modelled as none. -/
def save_news (news_items : List Candidate) (st : Store) : Store × Option Nat :=
  ((save_news_run news_items st).1, none)

/-- get_unsmarized_news (src/utils/database.py lines 59-74): the id, title
and content of every row whose summary is NULL or the empty string, in
storage order. -/
def get_unsmarized_news (st : Store) : List (Nat × String × Option String) :=
  (st.rows.filter (fun r => r.summary == none || r.summary == some "")).map
    (fun r => (r.id, r.title, r.content))

/-- update_news_summary (src/utils/database.py lines 76-85): set the summary
of every row with the given id (a no-op when no row matches). -/
def update_news_summary (news_id : Nat) (summary : String) (st : Store) : Store :=
  ⟨st.rows.map (fun r => if r.id = news_id then { r with summary := some summary } else r),
   st.nextId⟩

/-- Byte-order comparison of character lists, the BINARY collation SQLite
applies to the TEXT comparison published_at BETWEEN ? AND ?. -/
def charListLe : List Char → List Char → Bool
  | [], _ => true
  | _ :: _, [] => false
  | a :: as, b :: bs =>
    if a.toNat < b.toNat then true
    else if b.toNat < a.toNat then false
    else charListLe as bs

/-- String comparison under SQLite BINARY collation. -/
def strLe (a b : String) : Bool := charListLe a.data b.data

/-- The row filter of get_news_by_date_range (src/utils/database.py lines
95-102): published_at BETWEEN start 00:00:00 and end 23:59:59 (NULL fails
BETWEEN), and, only when the symbol argument is truthy (neither None nor the
empty string), symbol = ?. -/
def rowPass (startD endD : String) (symbol : Option String) (r : NewsRow) : Bool :=
  (match r.published_at with
   | some p => strLe (startD ++ " 00:00:00 UTC") p && strLe p (endD ++ " 23:59:59 UTC")
   | none => false) &&
  (match symbol with
   | some s => if s = "" then true else r.symbol == s
   | none => true)

/-- get_news_by_date_range (src/utils/database.py lines 87-113): the title
and summary of every passing row, in storage order. -/
def get_news_by_date_range (startD endD : String) (symbol : Option String)
    (st : Store) : List (String × Option String) :=
  (st.rows.filter (rowPass startD endD symbol)).map (fun r => (r.title, r.summary))

/-! ## The LLM service (src/utils/llm_service.py) -/

/-- Python truthiness of the api_key config entry: absent (None) or the
empty string is falsy (src/utils/llm_service.py line 45). -/
def keyTruthy : Option String → Bool
  | none => false
  | some s => !s.isEmpty

/-- The remote chat-completion collaborator: given the article text (None
when the content column is NULL), it answers with a message content or
raises (network error, bad credential, and so on). -/
def SummOracle : Type := Option String → Except Unit String

/-- LLMService.summarize_text (src/utils/llm_service.py lines 41-60) applied
to a text that may be None (a NULL content column).  With a falsy api_key
the placeholder branch evaluates text[:100]; on None this raises TypeError,
which nothing catches.  With a truthy key, an oracle failure is caught and
converted to the error-marker string, but building that marker also
evaluates text[:100] and so raises TypeError on None. -/
def summarize_text (apiKey : Option String) (oracle : SummOracle)
    (text : Option String) : Except Unit String :=
  if !keyTruthy apiKey then
    match text with
    | some t => .ok ("Placeholder Summary: " ++ t.take 100 ++ "...")
    | none => .error ()
  else
    match oracle text with
    | .ok s => .ok (pyStrip s)
    | .error _ =>
      match text with
      | some t =>
        .ok ("Error Summary: Failed to summarize due to LLM error. Original text start: "
             ++ t.take 100 ++ "...")
      | none => .error ()

/-- Python string formatting of a nullable summary value inside an f-string:
None prints as None. -/
def pyShow : Option String → String
  | some s => s
  | none => "None"

/-- The report_content prompt built by LLMService.generate_daily_report
(src/utils/llm_service.py lines 75-78): a header followed by the 1-indexed
enumeration of every title and summary. -/
def reportContent (sums : List (String × Option String)) : String :=
  (sums.enum.foldl
    (fun acc p =>
      acc ++ toString (p.1 + 1) ++ ". " ++ p.2.1 ++ "\n   Summary: " ++ pyShow p.2.2 ++ "\n")
    "Daily News Report:\n\n")

/-- The remote report-synthesis collaborator: given the composed prompt
content, answers with the report text or raises. -/
def ReportOracle : Type := String → Except Unit String

/-- LLMService.generate_daily_report (src/utils/llm_service.py lines
65-95). -/
def generate_daily_report (apiKey : Option String) (oracle : ReportOracle)
    (sums : List (String × Option String)) : String :=
  if !keyTruthy apiKey then "Placeholder Daily Report: LLM API key not configured."
  else if sums.isEmpty then "No news summaries provided for daily report."
  else
    match oracle (reportContent sums) with
    | .ok s => pyStrip s
    | .error _ =>
      "Error Daily Report: Failed to generate due to LLM error. Summaries provided: "
        ++ toString sums.length

/-! ## The processing pipeline (src/utils/news_processor.py) -/

/-- The ingest phase of NewsProcessor.process_and_summarize_news
(src/utils/news_processor.py lines 16-26): stamp every item of the batch
with the symbol of the batch and run save_news (an empty batch skips the
save_news call, which changes nothing). -/
def ingest (symbol : String) (batch : List Candidate) (st : Store) : Store :=
  let stamped := batch.map (fun item => cset item "symbol" symbol)
  if stamped.isEmpty then st else (save_news_run stamped st).1

/-- The enrich loop of NewsProcessor.process_and_summarize_news
(src/utils/news_processor.py lines 29-36): for each backlog entry call
summarize_text and write the result through update_news_summary.  An
uncaught exception from summarize_text aborts the loop: the flag records
that the run raised, and the store keeps the updates already committed. -/
def enrichLoop (apiKey : Option String) (oracle : SummOracle) :
    List (Nat × String × Option String) → Store → Store × Bool
  | [], st => (st, false)
  | e :: rest, st =>
    match summarize_text apiKey oracle e.2.2 with
    | .error _ => (st, true)
    | .ok s => enrichLoop apiKey oracle rest (update_news_summary e.1 s st)

/-- NewsProcessor.process_and_summarize_news (src/utils/news_processor.py
lines 11-36), for a news_data dict carrying the given symbol and news list:
ingest, then enrich the whole stored backlog.  The flag records whether the
run raised an uncaught exception. -/
def process_and_summarize_news (apiKey : Option String) (oracle : SummOracle)
    (symbol : String) (batch : List Candidate) (st : Store) : Store × Bool :=
  let st1 := ingest symbol batch st
  enrichLoop apiKey oracle (get_unsmarized_news st1) st1

/-- Python display of the optional symbol argument in the report header:
symbol if symbol else All (src/utils/news_processor.py lines 43 and 47). -/
def symbolShow : Option String → String
  | some s => if s = "" then "All" else s
  | none => "All"

/-- NewsProcessor.create_daily_report (src/utils/news_processor.py lines
38-50): query the one-day range; on an empty result return the fixed
message, otherwise delegate to generate_daily_report. -/
def create_daily_report (apiKey : Option String) (oracle : ReportOracle)
    (target_date_str : String) (symbol : Option String) (st : Store) : String :=
  let sums := get_news_by_date_range target_date_str target_date_str symbol st
  if sums.isEmpty then
    "No news summaries found for " ++ target_date_str ++ " (Symbol: "
      ++ symbolShow symbol ++ ") to generate a report."
  else generate_daily_report apiKey oracle sums

/-! ## Concrete document fixtures -/

/-- A paragraph node of the astDescription tree with one string child. -/
def pNode (s : String) : Json := .obj [("type", .str "p"), ("children", .arr [.str s])]

/-- A well-formed structured-data block: story title T with paragraph nodes
p1 and p2. -/
def jGood : Json := .obj [("page", .obj [("story", .obj [("title", .str "T"),
  ("astDescription", .obj [("children", .arr [pNode "p1", pNode "p2"])])])])]

/-- A malformed structured-data block whose children list holds a bare
string instead of a paragraph node: the Python code calls .get on that
string and raises AttributeError. -/
def jBad : Json := .obj [("page", .obj [("story", .obj [("title", .str "T"),
  ("astDescription", .obj [("children", .arr [.str "oops"])])])])]

/-- A structured-data block whose JSON is the list [5]: the for key in data
loop evaluates data[5] and raises IndexError. -/
def jIdx : Json := .arr [.num 5]

/-- A structured-data block whose story has a title but no description
tree: it does not short-circuit, but the title assignment persists. -/
def jTitleOnly : Json := .obj [("page", .obj [("story", .obj [("title", .str "T")])])]

/-- A structured-data block whose story has paragraph nodes but no title:
it does not short-circuit, but the collected paragraph persists. -/
def jParasOnly : Json := .obj [("page", .obj [("story", .obj
  [("astDescription", .obj [("children", .arr [pNode "p1"])])])])]

/-! ## Claims C3, C4, C8: the extractor -/

/-- C3: the claim says parse_news_html never raises and every failure mode
degrades to a placeholder result.  The code contradicts this (and the
intent of its own skip-on-mismatch handler at
src/utils/fetch_html_content.py lines 95-97): a structured block whose
children list holds a bare string reaches that string with .get and raises
AttributeError, and a block whose JSON is [5] raises IndexError while
indexing data[key]; neither exception is in the caught tuple
(json.JSONDecodeError, TypeError, KeyError), so both escape to the
caller. -/
theorem parse_news_html_raises_on_malformed_story :
    parse_news_html (some ⟨[some jBad], none, none, none, none⟩) =
      .error .attributeError ∧
    parse_news_html (some ⟨[some jIdx], none, none, none, none⟩) =
      .error .indexError :=
  ⟨rfl, rfl⟩

/-- When a prefix of the script blocks already short-circuits, the
remaining blocks are never consulted. -/
theorem tier1_append_ret (pre rest : List (Option Json)) (a c : String) :
    ∀ (t : Json) (ps : List String), tier1 pre t ps = .ret a c →
      tier1 (pre ++ rest) t ps = .ret a c := by
  induction pre with
  | nil =>
    intro t ps h
    simp [tier1] at h
  | cons o pre ih =>
    intro t ps h
    cases o with
    | none =>
      simp only [tier1, List.cons_append] at h ⊢
      exact ih t ps h
    | some j =>
      simp only [tier1, List.cons_append] at h ⊢
      cases hps : processScript j t ps with
      | ret a2 c2 => rw [hps] at h; exact h
      | raised e2 => rw [hps] at h; simp at h
      | state t2 ps2 => rw [hps] at h; exact ih t2 ps2 h

/-- C4: given a document whose structured block has story title T and
paragraph children p1 and p2, extraction returns title T with content
p1 newline p2; and in general, whenever a prefix of the structured blocks
short-circuits (the first block yielding both a truthy title and non-empty
paragraphs returns from inside the loop), the final result is exactly that
block's result, whatever later blocks and tier-2 tag content the document
holds. -/
theorem tier1_short_circuit :
    parse_news_html (some ⟨[some jGood], none, none, none, none⟩) =
      .ok ⟨.str "T", "p1\np2"⟩ ∧
    ∀ (pre rest : List (Option Json)) (a c : String) (h1a h1b h1c : Option String)
      (body : Option (List String)),
      tier1 pre (.str "") [] = .ret a c →
      parse_news_html (some ⟨pre ++ rest, h1a, h1b, h1c, body⟩) = .ok ⟨.str a, c⟩ := by
  refine ⟨rfl, ?_⟩
  intro pre rest a c h1a h1b h1c body h
  simp only [parse_news_html]
  rw [tier1_append_ret pre rest a c _ _ h]

/-- Witness for C4: the short-circuit result of the first block stands even
when a later malformed block (which would raise if consulted) and tier-2
tag content follow it. -/
theorem tier1_short_circuit_witness :
    parse_news_html (some ⟨[some jGood, some jBad], some "X", none, none, some ["zz"]⟩) =
      .ok ⟨.str "T", "p1\np2"⟩ :=
  tier1_short_circuit.2 [some jGood] [some jBad] "T" "p1\np2"
    (some "X") none none (some ["zz"]) rfl

/-- C8: extraction state leaks across tiers.  A block whose story has title
T but no usable paragraphs does not short-circuit, yet the fallback result
uses T instead of No Title Found; and a paragraph collected from a
title-less block is kept and prepended to the tier-2 paragraphs in the
final fallback content. -/
theorem extraction_state_leak :
    parse_news_html (some ⟨[some jTitleOnly], none, none, none, none⟩) =
      .ok ⟨.str "T", "No readable content found on this page after trying all methods."⟩ ∧
    parse_news_html (some ⟨[some jParasOnly], some "X", none, none, some ["p2"]⟩) =
      .ok ⟨.str "X", "p1\np2"⟩ :=
  ⟨rfl, rfl⟩

/-! ## Concrete store fixtures -/

/-- Candidate with link L1 published at the lower boundary of 2025-08-01. -/
def cA : Candidate := [("symbol", "AAPL"), ("title", "t1"), ("content", "c1"),
  ("link", "L1"), ("source", "S"), ("published", "2025-08-01 00:00:00 UTC")]

/-- Candidate with link L2 published at the upper boundary of 2025-08-01. -/
def cB : Candidate := [("symbol", "TSLA"), ("title", "t2"), ("link", "L2"),
  ("published", "2025-08-01 23:59:59 UTC")]

/-- Candidate with link L3 published at the first instant of the next day. -/
def cC : Candidate := [("symbol", "AAPL"), ("title", "t3"), ("link", "L3"),
  ("published", "2025-08-02 00:00:00 UTC")]

/-- Candidate re-using the already-stored link L1. -/
def cDup : Candidate := [("symbol", "AAPL"), ("title", "t4"), ("link", "L1"),
  ("published", "2025-08-01 12:00:00 UTC")]

/-- The store after ingesting cA, cB and cC into a fresh database. -/
def st3 : Store := (save_news_run [cA, cB, cC] init_db).1

/-! ## Claim C1: batch dedup arithmetic of save_news -/

/-- Whether the link of a candidate is already present in the table. -/
def linkStored (st : Store) (item : Candidate) : Bool :=
  match cget item "link" with
  | some l => st.rows.any (fun r => r.link == l)
  | none => false

/-- The number of candidates of a batch whose link is already stored. -/
def dupCount (st : Store) (items : List Candidate) : Nat :=
  (items.filter (linkStored st)).length

/-- C1 counterexample: the claim says save_news returns the inserted count
N minus D.  For the batch [cA] against the fresh database, N = 1 and D = 0
and one row is in fact inserted, but the Python function body has no return
statement, so the call returns None rather than 1. -/
theorem save_news_returns_none_counterexample :
    (save_news [cA] init_db).2 = none ∧
    (save_news [cA] init_db).2 ≠ some 1 ∧
    (save_news_run [cA] init_db).2 = 1 ∧
    (save_news [cA] init_db).1.rows.length = 1 := by
  refine ⟨rfl, ?_, rfl, rfl⟩
  decide

/-- Appending a row whose link differs from the link of a candidate does
not change whether that candidate counts as a duplicate. -/
theorem linkStored_append_ne (st : Store) (row : NewsRow) (nid : Nat)
    (other : Candidate)
    (h : ∀ l2, cget other "link" = some l2 → row.link ≠ l2) :
    linkStored ⟨st.rows ++ [row], nid⟩ other = linkStored st other := by
  unfold linkStored
  cases hco : cget other "link" with
  | none => rfl
  | some l2 =>
    have hb : (row.link == l2) = false := beq_eq_false_iff_ne.mpr (h l2 hco)
    simp [List.any_append, hb]

/-- Inserting a candidate whose link is absent from the rest of the batch
leaves the duplicate count of the rest unchanged. -/
theorem dupCount_insert (st : Store) (item : Candidate) (rest : List Candidate)
    (hnodup : cget item "link" ∉ rest.map (fun it => cget it "link")) :
    dupCount (insertItem st item) rest = dupCount st rest := by
  unfold dupCount
  have hcongr : ∀ it ∈ rest, linkStored (insertItem st item) it = linkStored st it := by
    intro it hit
    unfold insertItem
    cases hs : cget item "symbol" with
    | none => rfl
    | some sym =>
      cases ht : cget item "title" with
      | none => rfl
      | some t =>
        cases hl : cget item "link" with
        | none => rfl
        | some l =>
          by_cases hdup : st.rows.any (fun r => r.link == l) = true
          · simp [hdup]
          · simp only [hdup, Bool.false_eq_true, if_false]
            refine linkStored_append_ne st _ _ it ?_
            intro l2 hco heq
            subst heq
            exact hnodup (by
              rw [hl, ← hco]
              exact List.mem_map_of_mem (fun it2 => cget it2 "link") hit)
  rw [List.filter_congr hcongr]

/-- C1 amended: for a batch of N candidates with well-formed required
fields and pairwise-distinct links, D of which are already stored,
save_news counts (and prints) exactly N minus D inserts, the store gains
exactly N minus D new rows appended after the old ones, and no duplicate or
error aborts the rest of the batch or reaches the caller -- but the Python
return value of save_news is None, not the count. -/
theorem save_news_dedup_arithmetic (items : List Candidate) (st : Store)
    (hkeys : ∀ item ∈ items, (cget item "symbol").isSome ∧
      (cget item "title").isSome ∧ (cget item "link").isSome)
    (hlinks : (items.map (fun it => cget it "link")).Nodup) :
    (save_news_run items st).2 = items.length - dupCount st items ∧
    dupCount st items ≤ items.length ∧
    (∃ fresh : List NewsRow,
      (save_news_run items st).1.rows = st.rows ++ fresh ∧
      fresh.length = items.length - dupCount st items) ∧
    (save_news items st).2 = none := by
  induction items generalizing st with
  | nil =>
    exact ⟨rfl, Nat.le_refl 0, ⟨[], by simp [save_news_run], rfl⟩, rfl⟩
  | cons item rest ih =>
    obtain ⟨hs1, ht1, hl1⟩ := hkeys item (List.mem_cons_self item rest)
    obtain ⟨sym, hs⟩ := Option.isSome_iff_exists.mp hs1
    obtain ⟨ttl, ht⟩ := Option.isSome_iff_exists.mp ht1
    obtain ⟨l, hl⟩ := Option.isSome_iff_exists.mp hl1
    have hkeys2 : ∀ it ∈ rest, (cget it "symbol").isSome ∧
        (cget it "title").isSome ∧ (cget it "link").isSome :=
      fun it hit => hkeys it (List.mem_cons_of_mem item hit)
    have hnodup2 : (rest.map (fun it => cget it "link")).Nodup :=
      (List.nodup_cons.mp (by simpa using hlinks)).2
    have hnotmem : cget item "link" ∉ rest.map (fun it => cget it "link") :=
      (List.nodup_cons.mp (by simpa using hlinks)).1
    have hdupc : dupCount (insertItem st item) rest = dupCount st rest :=
      dupCount_insert st item rest hnotmem
    have hlenle : dupCount st rest ≤ rest.length := List.length_filter_le _ _
    obtain ⟨ihc, ihle, ⟨fresh, ihrows, ihlen⟩, _⟩ :=
      ih (insertItem st item) hkeys2 hnodup2
    by_cases hdup : st.rows.any (fun r => r.link == l) = true
    · have hins : itemInsertable st item = false := by
        simp [itemInsertable, hs, ht, hl, hdup]
      have hstay : insertItem st item = st := by
        simp [insertItem, hs, ht, hl, hdup]
      have hls : linkStored st item = true := by
        simp [linkStored, hl, hdup]
      have hdc : dupCount st (item :: rest) = dupCount st rest + 1 := by
        simp [dupCount, List.filter_cons, hls]
      rw [hstay] at ihc ihrows ihlen hdupc
      rw [hdupc] at ihc ihlen
      refine ⟨?_, ?_, ⟨fresh, ?_, ?_⟩, rfl⟩
      · simp only [save_news_run, hins, if_false, hstay, hdc]
        simpa using ihc
      · simp only [hdc, List.length_cons]
        omega
      · simp only [save_news_run, hstay]
        exact ihrows
      · rw [ihlen, hdc]
        simp only [List.length_cons]
        omega
    · have hins : itemInsertable st item = true := by
        simp [itemInsertable, hs, ht, hl, hdup]
      have hls : linkStored st item = false := by
        simp [linkStored, hl, hdup]
      have hdc : dupCount st (item :: rest) = dupCount st rest := by
        simp [dupCount, List.filter_cons, hls]
      have hrow : insertItem st item =
          ⟨st.rows ++ [⟨st.nextId, sym, ttl, cget item "content", none, l,
            cget item "source", cget item "published"⟩], st.nextId + 1⟩ := by
        simp [insertItem, hs, ht, hl, hdup]
      rw [hdupc] at ihc ihlen
      refine ⟨?_, ?_, ?_, rfl⟩
      · simp only [save_news_run, hins, if_true, hdc, ihc, List.length_cons]
        omega
      · simp only [hdc, List.length_cons]
        omega
      · refine ⟨⟨st.nextId, sym, ttl, cget item "content", none, l,
          cget item "source", cget item "published"⟩ :: fresh, ?_, ?_⟩
        · have : (save_news_run (item :: rest) st).1 =
              (save_news_run rest (insertItem st item)).1 := rfl
          rw [this, ihrows, hrow]
          simp
        · simp only [List.length_cons, ihlen, hdc, List.length_cons]
          omega

/-- Witness for C1 amended: against a store already holding link L1, the
batch [cDup, cB] has N = 2, D = 1, and save_news counts exactly one
insert. -/
theorem save_news_dedup_arithmetic_witness :
    (save_news_run [cDup, cB] (save_news_run [cA] init_db).1).2 = 1 ∧
    (save_news_run [cDup, cB] (save_news_run [cA] init_db).1).1.rows.length = 2 := by
  have h := save_news_dedup_arithmetic [cDup, cB] (save_news_run [cA] init_db).1
    (by decide) (by decide)
  obtain ⟨hc, -, ⟨fresh, hrows, hlen⟩, -⟩ := h
  constructor
  · rw [hc]; decide
  · rw [hrows]
    simp only [List.length_append, hlen]
    decide

/-! ## Claim C5: link uniqueness -/

/-- No two stored rows share a link (the UNIQUE constraint of init_db). -/
abbrev UniqueLinks (st : Store) : Prop :=
  st.rows.Pairwise (fun r1 r2 => r1.link ≠ r2.link)

/-- Number of stored rows carrying the given link. -/
def countLink (st : Store) (l : String) : Nat :=
  (st.rows.filter (fun r => r.link == l)).length

/-- One save_news iteration preserves link uniqueness: the row is appended
only after the link was checked absent. -/
theorem insertItem_uniqueLinks (st : Store) (item : Candidate)
    (h : UniqueLinks st) : UniqueLinks (insertItem st item) := by
  unfold insertItem
  cases hs : cget item "symbol" with
  | none => exact h
  | some sym =>
    cases ht : cget item "title" with
    | none => exact h
    | some ttl =>
      cases hl : cget item "link" with
      | none => exact h
      | some l =>
        by_cases hdup : st.rows.any (fun r => r.link == l) = true
        · simpa [hdup] using h
        · simp only [hdup, Bool.false_eq_true, if_false]
          unfold UniqueLinks at h ⊢
          rw [List.pairwise_append]
          refine ⟨h, List.pairwise_singleton _ _, ?_⟩
          intro a ha b hb
          have hb2 : b.link = l := by
            simp only [List.mem_singleton] at hb
            rw [hb]
          rw [hb2]
          have := List.any_eq_false.mp (Bool.not_eq_true _ ▸ hdup) a ha
          simpa using this

/-- A whole save_news batch preserves link uniqueness. -/
theorem save_news_run_uniqueLinks (items : List Candidate) (st : Store)
    (h : UniqueLinks st) : UniqueLinks (save_news_run items st).1 := by
  induction items generalizing st with
  | nil => exact h
  | cons item rest ih => exact ih (insertItem st item) (insertItem_uniqueLinks st item h)

/-- One save_news iteration cannot duplicate a link that already has
exactly one row: the insert is refused for that link. -/
theorem insertItem_countLink (st : Store) (item : Candidate) (l : String)
    (h : countLink st l = 1) : countLink (insertItem st item) l = 1 := by
  unfold insertItem
  cases hs : cget item "symbol" with
  | none => exact h
  | some sym =>
    cases ht : cget item "title" with
    | none => exact h
    | some ttl =>
      cases hl : cget item "link" with
      | none => exact h
      | some l2 =>
        by_cases hdup : st.rows.any (fun r => r.link == l2) = true
        · simpa [hdup] using h
        · simp only [hdup, Bool.false_eq_true, if_false]
          unfold countLink at h ⊢
          simp only [List.filter_append]
          have hne : l2 ≠ l := by
            intro heq
            subst heq
            have hex : ∃ r ∈ st.rows, r.link = l2 := by
              by_contra hno
              push_neg at hno
              have : (st.rows.filter (fun r => r.link == l2)) = [] := by
                refine List.filter_eq_nil_iff.mpr ?_
                intro r hr
                simpa using hno r hr
              rw [this] at h
              simp at h
            obtain ⟨r, hr, hrl⟩ := hex
            have : st.rows.any (fun r => r.link == l2) = true :=
              List.any_eq_true.mpr ⟨r, hr, by simpa using hrl⟩
            exact hdup this
          have : ([(⟨st.nextId, sym, ttl, cget item "content", none, l2,
              cget item "source", cget item "published"⟩ : NewsRow)].filter
              (fun r => r.link == l)) = [] := by
            simp [hne]
          rw [this]
          simpa using h

/-- A whole save_news batch keeps exactly one row for an already-stored
link. -/
theorem save_news_run_countLink (items : List Candidate) (st : Store)
    (l : String) (h : countLink st l = 1) :
    countLink (save_news_run items st).1 l = 1 := by
  induction items generalizing st with
  | nil => exact h
  | cons item rest ih => exact ih (insertItem st item) (insertItem_countLink st item l h)

/-- C5: link uniqueness is an invariant of every store operation.  Both
save_news (whatever the batch) and update_news_summary preserve the
pairwise-distinct-links invariant, and when a link L already has exactly
one stored row, appending any batch (in particular one re-using L) leaves
exactly one stored row for L. -/
theorem link_uniqueness_invariant :
    (∀ (st : Store) (items : List Candidate),
      UniqueLinks st → UniqueLinks (save_news_run items st).1) ∧
    (∀ (st : Store) (i : Nat) (s : String),
      UniqueLinks st → UniqueLinks (update_news_summary i s st)) ∧
    (∀ (st : Store) (items : List Candidate) (l : String),
      countLink st l = 1 → countLink (save_news_run items st).1 l = 1) := by
  refine ⟨fun st items h => save_news_run_uniqueLinks items st h, ?_,
    fun st items l h => save_news_run_countLink items st l h⟩
  intro st i s h
  unfold UniqueLinks at h ⊢
  unfold update_news_summary
  simp only []
  rw [List.pairwise_map]
  refine h.imp ?_
  intro a b hab
  by_cases ha : a.id = i <;> by_cases hb2 : b.id = i <;>
    simp [ha, hb2] <;> exact hab

/-- Witness for C5: the three-row store st3 has unique links; appending a
batch that re-uses link L1 keeps them unique and keeps exactly one row for
L1. -/
theorem link_uniqueness_invariant_witness :
    UniqueLinks (save_news_run [cDup, cB] st3).1 ∧
    UniqueLinks (update_news_summary 1 "s" st3) ∧
    countLink (save_news_run [cDup] st3).1 "L1" = 1 := by
  have h := link_uniqueness_invariant
  exact ⟨h.1 st3 [cDup, cB] (by decide), h.2.1 st3 1 "s" (by decide),
    h.2.2 st3 [cDup] "L1" (by decide)⟩

/-! ## Claims C6, C9, C10: the date-range query -/

/-- Modelled from the spec: the membership condition of queryByDateRange is
that published_at falls within the closed interval from startDay 00:00:00
to endDay 23:59:59 in the stored textual convention, and, when a symbol is
given, the row carries exactly that symbol. -/
def specPass (startD endD : String) (symbol : Option String) (r : NewsRow) : Bool :=
  (match r.published_at with
   | some p => strLe (startD ++ " 00:00:00 UTC") p && strLe p (endD ++ " 23:59:59 UTC")
   | none => false) &&
  (match symbol with
   | some s => r.symbol == s
   | none => true)

/-- C6: get_news_by_date_range returns exactly the title and summary of the
stored rows whose published_at lies within the closed interval from start
day 00:00:00 to end day 23:59:59 (in the stored textual convention), with
an exact symbol filter whenever a symbol is given (a given symbol means a
truthy one: the empty string plays the role of an absent argument in the
Python if symbol test).  Concretely, on store st3 both boundary instants
2025-08-01 00:00:00 and 2025-08-01 23:59:59 are included, the next-day
instant 2025-08-02 00:00:00 is excluded, and filtering by AAPL excludes the
TSLA row. -/
theorem date_range_query :
    (∀ (st : Store) (startD endD : String) (symbol : Option String),
      symbol ≠ some "" →
      get_news_by_date_range startD endD symbol st =
        (st.rows.filter (specPass startD endD symbol)).map (fun r => (r.title, r.summary))) ∧
    get_news_by_date_range "2025-08-01" "2025-08-01" none st3 =
      [("t1", none), ("t2", none)] ∧
    get_news_by_date_range "2025-08-01" "2025-08-01" (some "AAPL") st3 =
      [("t1", none)] := by
  refine ⟨?_, by decide, by decide⟩
  intro st startD endD symbol hsym
  unfold get_news_by_date_range
  congr 1
  apply List.filter_congr
  intro r _
  unfold rowPass specPass
  cases symbol with
  | none => rfl
  | some s =>
    have hs : s ≠ "" := fun h => hsym (by rw [h])
    simp [hs]

/-- Witness for C6: the general characterization applied to st3 over the
two-day range with the AAPL filter. -/
theorem date_range_query_witness :
    get_news_by_date_range "2025-08-01" "2025-08-02" (some "AAPL") st3 =
      (st3.rows.filter (specPass "2025-08-01" "2025-08-02" (some "AAPL"))).map
        (fun r => (r.title, r.summary)) :=
  date_range_query.1 st3 "2025-08-01" "2025-08-02" (some "AAPL") (by decide)

/-- Row stored with an ISO-format timestamp whose instant lies inside
2025-08-01. -/
def rIso : NewsRow :=
  ⟨0, "AAPL", "ti", none, none, "L9", none, some "2025-08-01T12:00:00Z"⟩

/-- Row stored with the canonical timestamp format at the same instant. -/
def rCanon : NewsRow :=
  ⟨1, "AAPL", "tc", none, none, "L10", none, some "2025-08-01 12:00:00 UTC"⟩

/-- C9: the BETWEEN comparison of get_news_by_date_range is string order
against bounds of the form day 00:00:00 UTC and day 23:59:59 UTC.  Rows
with a NULL published_at never contribute to any query result (removing
them changes nothing), and a row stored in another format is judged by
string order rather than by its instant: the ISO form of noon 2025-08-01
sorts above the 23:59:59 UTC bound (letter T is above the space) and is
excluded from the query for its own day, while the canonical form of the
same instant is included. -/
theorem published_at_string_order :
    (∀ (st : Store) (startD endD : String) (symbol : Option String),
      get_news_by_date_range startD endD symbol
        ⟨st.rows.filter (fun r => r.published_at.isSome), st.nextId⟩ =
      get_news_by_date_range startD endD symbol st) ∧
    get_news_by_date_range "2025-08-01" "2025-08-01" none ⟨[rIso, rCanon], 2⟩ =
      [("tc", none)] := by
  refine ⟨?_, by decide⟩
  intro st startD endD symbol
  unfold get_news_by_date_range
  congr 1
  simp only [List.filter_filter]
  apply List.filter_congr
  intro r _
  cases hp : r.published_at with
  | none => simp [rowPass, hp]
  | some p => simp [rowPass, hp]

/-- Candidate carrying its timestamp only under the key published_at, which
save_news never reads. -/
def cNoPub : Candidate := [("symbol", "AAPL"), ("title", "tn"), ("link", "L8"),
  ("published_at", "2025-08-01 10:00:00 UTC")]

/-- C10: save_news reads the timestamp from the candidate key published.  A
candidate without that key is inserted with a NULL published_at, and the
inserted row is invisible to every date-range query: inserting it changes
no query result.  Concretely, cNoPub (timestamp only under published_at)
lands with a NULL published_at and the query for its day misses it. -/
theorem published_key_mismatch :
    (∀ (st : Store) (item : Candidate), cget item "published" = none →
      ∀ (startD endD : String) (symbol : Option String),
        get_news_by_date_range startD endD symbol (insertItem st item) =
        get_news_by_date_range startD endD symbol st) ∧
    (insertItem init_db cNoPub).rows.map (fun r => r.published_at) = [none] ∧
    get_news_by_date_range "2025-08-01" "2025-08-01" none
      (insertItem init_db cNoPub) = [] := by
  refine ⟨?_, by decide, by decide⟩
  intro st item hpub startD endD symbol
  unfold insertItem
  cases hs : cget item "symbol" with
  | none => rfl
  | some sym =>
    cases ht : cget item "title" with
    | none => rfl
    | some ttl =>
      cases hl : cget item "link" with
      | none => rfl
      | some l =>
        by_cases hdup : st.rows.any (fun r => r.link == l) = true
        · simp [hdup]
        · simp only [hdup, Bool.false_eq_true, if_false]
          unfold get_news_by_date_range
          simp only [List.filter_append]
          have hrp : rowPass startD endD symbol
              ⟨st.nextId, sym, ttl, cget item "content", none, l,
               cget item "source", cget item "published"⟩ = false := by
            simp [rowPass, hpub]
          simp [hrp]

/-- Witness for C10: inserting cNoPub into st3 leaves every result of the
boundary-day query unchanged. -/
theorem published_key_mismatch_witness :
    get_news_by_date_range "2025-08-01" "2025-08-01" none (insertItem st3 cNoPub) =
      get_news_by_date_range "2025-08-01" "2025-08-01" none st3 :=
  published_key_mismatch.1 st3 cNoPub (by decide) "2025-08-01" "2025-08-01" none

/-! ## Claim C7: empty report -/

/-- C7: when the one-day query comes back empty, create_daily_report
returns the fixed no-summaries message, which depends only on the date and
symbol arguments, and the result is independent of the summarization
collaborator and of the configured credential (the collaborator is never
consulted). -/
theorem empty_report_fixed_message (apiKey : Option String) (oracle : ReportOracle)
    (d : String) (symbol : Option String) (st : Store)
    (h : get_news_by_date_range d d symbol st = []) :
    create_daily_report apiKey oracle d symbol st =
      "No news summaries found for " ++ d ++ " (Symbol: " ++ symbolShow symbol
        ++ ") to generate a report." ∧
    ∀ (apiKey2 : Option String) (oracle2 : ReportOracle),
      create_daily_report apiKey oracle d symbol st =
        create_daily_report apiKey2 oracle2 d symbol st := by
  have hmsg : ∀ (k : Option String) (o : ReportOracle),
      create_daily_report k o d symbol st =
        "No news summaries found for " ++ d ++ " (Symbol: " ++ symbolShow symbol
          ++ ") to generate a report." := by
    intro k o
    unfold create_daily_report
    rw [h]
    rfl
  exact ⟨hmsg apiKey oracle, fun k2 o2 => (hmsg apiKey oracle).trans (hmsg k2 o2).symm⟩

/-- Witness for C7: the fresh database holds nothing for 2025-09-01, and
the report for that day is the fixed message. -/
theorem empty_report_fixed_message_witness :
    create_daily_report (some "k") (fun _ => .ok "r") "2025-09-01" (some "AAPL") init_db =
      "No news summaries found for 2025-09-01 (Symbol: AAPL) to generate a report." := by
  have h := empty_report_fixed_message (some "k") (fun _ => .ok "r") "2025-09-01"
    (some "AAPL") init_db (by decide)
  exact h.1.trans (by decide)


/-! ## Claim C2: enrich-phase backlog convergence -/

/-- A row counts as enriched: its summary is a non-empty string. -/
def RowEnriched (r : NewsRow) : Prop :=
  ∃ s, r.summary = some s ∧ s ≠ ""

/-- A string with a non-empty prefix is non-empty. -/
theorem str_prepend_ne_empty (a b : String) (ha : a ≠ "") : a ++ b ≠ "" := by
  intro h
  have hd := congrArg String.data h
  rw [String.data_append] at hd
  have hnil : a.data = [] ∧ b.data = [] := List.append_eq_nil.mp hd
  exact ha (String.ext hnil.1)

/-- On a non-null text, summarize_text never raises and always produces a
non-empty summary string, provided every successful collaborator response
is non-empty once stripped: the no-credential branch yields the placeholder
string, a collaborator failure yields the error-marker string, a
collaborator success yields its stripped response. -/
theorem summarize_text_good (apiKey : Option String) (oracle : SummOracle)
    (t : String) (ho : ∀ x s, oracle x = .ok s → pyStrip s ≠ "") :
    ∃ s, summarize_text apiKey oracle (some t) = .ok s ∧ s ≠ "" := by
  unfold summarize_text
  cases hk : keyTruthy apiKey with
  | false =>
    refine ⟨"Placeholder Summary: " ++ t.take 100 ++ "...", by simp [hk], ?_⟩
    exact str_prepend_ne_empty _ "..."
      (str_prepend_ne_empty "Placeholder Summary: " _ (by decide))
  | true =>
    cases horc : oracle (some t) with
    | ok s0 =>
      exact ⟨pyStrip s0, by simp [hk, horc], ho (some t) s0 horc⟩
    | error e =>
      refine ⟨"Error Summary: Failed to summarize due to LLM error. Original text start: "
        ++ t.take 100 ++ "...", by simp [hk, horc], ?_⟩
      exact str_prepend_ne_empty _ "..."
        (str_prepend_ne_empty
          "Error Summary: Failed to summarize due to LLM error. Original text start: "
          _ (by decide))

/-- The enrich loop over a backlog of non-null-content entries never
raises, and transforms the table rowwise: every row keeps its id, and
either keeps its summary untouched (possible only when no backlog entry
carries its id) or ends up enriched. -/
theorem enrichLoop_map (apiKey : Option String) (oracle : SummOracle)
    (ho : ∀ x s, oracle x = .ok s → pyStrip s ≠ "") :
    ∀ (todo : List (Nat × String × Option String)) (st : Store),
      (∀ e ∈ todo, e.2.2 ≠ none) →
      (enrichLoop apiKey oracle todo st).2 = false ∧
      ∃ g : NewsRow → NewsRow,
        (enrichLoop apiKey oracle todo st).1.rows = st.rows.map g ∧
        ∀ r : NewsRow, (g r).id = r.id ∧
          (((g r).summary = r.summary ∧ ∀ e ∈ todo, e.1 ≠ r.id) ∨ RowEnriched (g r)) := by
  intro todo
  induction todo with
  | nil =>
    intro st _
    refine ⟨rfl, fun r => r, by simp [enrichLoop], ?_⟩
    intro r
    exact ⟨rfl, Or.inl ⟨rfl, by simp⟩⟩
  | cons e rest ih =>
    intro st hcont
    obtain ⟨i, ttl, c⟩ := e
    have hc : c ≠ none := hcont (i, ttl, c) (List.mem_cons_self _ _)
    obtain ⟨t, rfl⟩ := Option.ne_none_iff_exists'.mp hc
    obtain ⟨s, hsum, hsne⟩ := summarize_text_good apiKey oracle t ho
    have hrest : ∀ e2 ∈ rest, e2.2.2 ≠ none :=
      fun e2 he2 => hcont e2 (List.mem_cons_of_mem _ he2)
    obtain ⟨hflag, g2, hrows, hg2⟩ := ih (update_news_summary i s st) hrest
    have hstep : enrichLoop apiKey oracle ((i, ttl, some t) :: rest) st =
        enrichLoop apiKey oracle rest (update_news_summary i s st) := by
      simp only [enrichLoop]
      rw [hsum]
    refine ⟨by rw [hstep]; exact hflag, ?_⟩
    refine ⟨fun r => g2 (if r.id = i then { r with summary := some s } else r), ?_, ?_⟩
    · rw [hstep, hrows]
      show (st.rows.map fun r =>
          if r.id = i then { r with summary := some s } else r).map g2 = _
      rw [List.map_map]
      rfl
    · intro r
      dsimp only
      by_cases h : r.id = i
      · rw [if_pos h]
        obtain ⟨hgid, hdisj⟩ := hg2 { r with summary := some s }
        refine ⟨hgid, Or.inr ?_⟩
        cases hdisj with
        | inl hl => exact ⟨s, hl.1, hsne⟩
        | inr hr => exact hr
      · rw [if_neg h]
        obtain ⟨hgid, hdisj⟩ := hg2 r
        refine ⟨hgid, ?_⟩
        cases hdisj with
        | inl hl =>
          refine Or.inl ⟨hl.1, ?_⟩
          intro e2 he2
          rcases List.mem_cons.mp he2 with he | he
          · rw [he]
            exact fun hh => h hh.symm
          · exact hl.2 e2 he
        | inr hr => exact Or.inr hr

/-- cset leaves every other key of the dict unchanged. -/
theorem cget_cset_ne (item : Candidate) (k v k2 : String) (h : k2 ≠ k) :
    cget (cset item k v) k2 = cget item k2 := by
  show (if k = k2 then some v else cget item k2) = cget item k2
  rw [if_neg (fun hh => h hh.symm)]

/-- Every row present after one save_news iteration was either already
stored or was freshly inserted with content read from the candidate and a
NULL summary. -/
theorem insertItem_rows_sub (st : Store) (item : Candidate) (r : NewsRow)
    (hr : r ∈ (insertItem st item).rows) :
    r ∈ st.rows ∨ (r.content = cget item "content" ∧ r.summary = none) := by
  unfold insertItem at hr
  cases hs : cget item "symbol" with
  | none => rw [hs] at hr; exact Or.inl hr
  | some sym =>
    cases ht : cget item "title" with
    | none => rw [hs, ht] at hr; exact Or.inl hr
    | some ttl =>
      cases hl : cget item "link" with
      | none => rw [hs, ht, hl] at hr; exact Or.inl hr
      | some l =>
        rw [hs, ht, hl] at hr
        cases hdup : st.rows.any (fun r => r.link == l) with
        | true =>
          simp only [hdup, if_true] at hr
          exact Or.inl hr
        | false =>
          simp only [hdup, Bool.false_eq_true, if_false] at hr
          rcases List.mem_append.mp hr with h2 | h2
          · exact Or.inl h2
          · rw [List.mem_singleton.mp h2]
            exact Or.inr ⟨rfl, rfl⟩

/-- Every row present after a save_news batch was either already stored or
freshly inserted from one of the batch candidates. -/
theorem save_news_run_rows_sub (items : List Candidate) (st : Store) (r : NewsRow)
    (hr : r ∈ (save_news_run items st).1.rows) :
    r ∈ st.rows ∨ ∃ item ∈ items, r.content = cget item "content" ∧ r.summary = none := by
  induction items generalizing st with
  | nil => exact Or.inl hr
  | cons item rest ih =>
    rcases ih (insertItem st item) hr with h | ⟨item2, hmem, hcnt⟩
    · rcases insertItem_rows_sub st item r h with h2 | h2
      · exact Or.inl h2
      · exact Or.inr ⟨item, List.mem_cons_self _ _, h2⟩
    · exact Or.inr ⟨item2, List.mem_cons_of_mem _ hmem, hcnt⟩

/-- Every row present after the ingest phase was either already stored or
freshly inserted with content read from one batch candidate (symbol
stamping does not touch the content key) and a NULL summary. -/
theorem ingest_rows_sub (symbol : String) (batch : List Candidate) (st : Store)
    (r : NewsRow) (hr : r ∈ (ingest symbol batch st).rows) :
    r ∈ st.rows ∨ ∃ item ∈ batch, r.content = cget item "content" ∧ r.summary = none := by
  unfold ingest at hr
  by_cases hemp : (batch.map (fun item => cset item "symbol" symbol)).isEmpty = true
  · rw [if_pos hemp] at hr
    exact Or.inl hr
  · rw [if_neg hemp] at hr
    rcases save_news_run_rows_sub _ st r hr with h | ⟨item2, hmem, hcnt, hsum⟩
    · exact Or.inl h
    · obtain ⟨item, hitem, rfl⟩ := List.mem_map.mp hmem
      refine Or.inr ⟨item, hitem, ?_, hsum⟩
      rw [hcnt]
      exact cget_cset_ne item "symbol" symbol "content" (by decide)

/-- C2 counterexample inputs: a backlog row with NULL content followed by a
healthy one. -/
def rNull : NewsRow := ⟨0, "AAPL", "t0", none, none, "L0", none, none⟩

/-- A healthy unsummarized row stored after rNull. -/
def rBody : NewsRow := ⟨1, "AAPL", "t1", some "body one", none, "L1b", none, none⟩

/-- A summarization collaborator that always answers. -/
def oracleOk : SummOracle := fun _ => .ok "sum"

/-- C2 counterexample: the claim says a summarization failure on one
backlog item does not stop processing of the remaining items and that the
backlog is empty afterwards.  With no credential configured and a backlog
whose first row has NULL content, summarize_text evaluates None[:100] and
raises TypeError (uncaught), the enrich loop aborts, and the run ends with
the second row still unsummarized: the backlog is not empty and the
remaining item was never processed. -/
theorem enrich_null_content_counterexample :
    (process_and_summarize_news none oracleOk "AAPL" [] ⟨[rNull, rBody], 2⟩).2 = true ∧
    get_unsmarized_news
        (process_and_summarize_news none oracleOk "AAPL" [] ⟨[rNull, rBody], 2⟩).1 =
      [(0, "t0", none), (1, "t1", some "body one")] := by
  exact ⟨rfl, by decide⟩

/-- C2 amended: provided every stored backlog row and every batch candidate
carries a non-null content, and every successful collaborator response is
non-empty once stripped, the run never raises, the backlog is empty after
the enrich phase, and every row that was unsummarized after the ingest
phase ends up with a non-empty summary (a per-item collaborator failure
only yields the error-marker summary and stops nothing, the oracle being
free to fail on any subset of items). -/
theorem enrich_backlog_convergence
    (apiKey : Option String) (oracle : SummOracle) (symbol : String)
    (batch : List Candidate) (st : Store)
    (hold : ∀ r ∈ st.rows, (r.summary = none ∨ r.summary = some "") → r.content ≠ none)
    (hbatch : ∀ item ∈ batch, cget item "content" ≠ none)
    (horacle : ∀ x s, oracle x = .ok s → pyStrip s ≠ "") :
    (process_and_summarize_news apiKey oracle symbol batch st).2 = false ∧
    get_unsmarized_news (process_and_summarize_news apiKey oracle symbol batch st).1 = [] ∧
    ∀ r ∈ (ingest symbol batch st).rows, (r.summary = none ∨ r.summary = some "") →
      ∃ r2 ∈ (process_and_summarize_news apiKey oracle symbol batch st).1.rows,
        r2.id = r.id ∧ RowEnriched r2 := by
  have hcont1 : ∀ r ∈ (ingest symbol batch st).rows,
      (r.summary = none ∨ r.summary = some "") → r.content ≠ none := by
    intro r hr hsum
    rcases ingest_rows_sub symbol batch st r hr with h | ⟨item, hitem, hcnt, _⟩
    · exact hold r h hsum
    · rw [hcnt]
      exact hbatch item hitem
  have htodo : ∀ e ∈ get_unsmarized_news (ingest symbol batch st), e.2.2 ≠ none := by
    intro e he
    unfold get_unsmarized_news at he
    obtain ⟨r, hrf, rfl⟩ := List.mem_map.mp he
    obtain ⟨hrmem, hp⟩ := List.mem_filter.mp hrf
    have hp2 : r.summary = none ∨ r.summary = some "" := by simpa using hp
    exact hcont1 r hrmem hp2
  obtain ⟨hflag, g, hrows, hg⟩ :=
    enrichLoop_map apiKey oracle horacle (get_unsmarized_news (ingest symbol batch st))
      (ingest symbol batch st) htodo
  have hproc : process_and_summarize_news apiKey oracle symbol batch st =
      enrichLoop apiKey oracle (get_unsmarized_news (ingest symbol batch st))
        (ingest symbol batch st) := rfl
  refine ⟨by rw [hproc]; exact hflag, ?_, ?_⟩
  · rw [hproc]
    have hnil : (((ingest symbol batch st).rows.map g).filter
        (fun r => r.summary == none || r.summary == some "")) = [] := by
      refine List.filter_eq_nil_iff.mpr ?_
      intro a ha
      obtain ⟨r, hrmem, rfl⟩ := List.mem_map.mp ha
      rcases (hg r).2 with ⟨hsame, hnid⟩ | ⟨s, hs, hsne⟩
      · intro hp
        rw [hsame] at hp
        have hp2 : r.summary = none ∨ r.summary = some "" := by simpa using hp
        have hmem2 : (r.id, r.title, r.content) ∈
            get_unsmarized_news (ingest symbol batch st) := by
          unfold get_unsmarized_news
          exact List.mem_map.mpr ⟨r, List.mem_filter.mpr ⟨hrmem, by simpa using hp2⟩, rfl⟩
        exact hnid (r.id, r.title, r.content) hmem2 rfl
      · intro hp
        rw [hs] at hp
        simp only [Option.some.injEq, beq_iff_eq, Bool.or_eq_true] at hp
        rcases hp with hp | hp
        · exact Option.noConfusion hp
        · exact hsne hp
    show ((enrichLoop apiKey oracle (get_unsmarized_news (ingest symbol batch st))
        (ingest symbol batch st)).1.rows.filter
          (fun r => r.summary == none || r.summary == some "")).map
        (fun r => (r.id, r.title, r.content)) = []
    rw [hrows, hnil]
    rfl
  · intro r hrmem hsum
    refine ⟨g r, ?_, (hg r).1, ?_⟩
    · rw [hproc, hrows]
      exact List.mem_map_of_mem g hrmem
    · rcases (hg r).2 with ⟨hsame, hnid⟩ | henr
      · exfalso
        have hmem2 : (r.id, r.title, r.content) ∈
            get_unsmarized_news (ingest symbol batch st) := by
          unfold get_unsmarized_news
          exact List.mem_map.mpr ⟨r, List.mem_filter.mpr ⟨hrmem, by simpa using hsum⟩, rfl⟩
        exact hnid (r.id, r.title, r.content) hmem2 rfl
      · exact henr

/-- Witness for C2 amended: one healthy backlog row, an empty batch, a
credential present and a collaborator that fails on every call; the run
does not raise and the backlog empties (via the error-marker summary). -/
theorem enrich_backlog_convergence_witness :
    (process_and_summarize_news (some "k") (fun _ => .error ()) "AAPL" []
        ⟨[rBody], 2⟩).2 = false ∧
    get_unsmarized_news (process_and_summarize_news (some "k") (fun _ => .error ())
        "AAPL" [] ⟨[rBody], 2⟩).1 = [] := by
  have h := enrich_backlog_convergence (some "k") (fun _ => .error ()) "AAPL" []
    ⟨[rBody], 2⟩ (by decide) (by decide) (fun x s hxs => nomatch hxs)
  exact ⟨h.1, h.2.1⟩
